import Mathlib

/-!
Verification of the transport-framing layer in
`src/amqprs/src/net/split_connection.rs`.

Bytes are modelled as `Nat` values (< 256 where the code guarantees it).
The transport is modelled as a transcript: the `Writer` records every byte
passed to `write_all` in a `wire` field, and the `Reader` consumes a list of
chunks, one chunk per `read_buf` call; an exhausted chunk list (or an empty
chunk) models `read_buf` returning `0`, i.e. end of stream.

The frame codec (`crate::frame::Frame::decode`, `amqp_serde::to_buffer`,
`FRAME_END`) lives outside `src/`; it is modelled from the spec, see the
doc comments on `Frame.decode`, `FrameHeader.encode` and `FRAME_END`.
-/

namespace Amqprs

/-- Modelled from the spec: the fixed end-marker sentinel byte
(`amqp_serde::constants::FRAME_END`; the concrete value 206 = 0xCE is the
AMQP frame-end octet, any fixed byte would do for the framing layer). -/
def FRAME_END : Nat := 206

/-- Big-endian bytes of a `u32` value (`(x as u32).to_be_bytes()`). -/
def u32be (n : Nat) : List Nat :=
  [n / 16777216 % 256, n / 65536 % 256, n / 256 % 256, n % 256]

/-- Big-endian bytes of a `u16` value. -/
def u16be (n : Nat) : List Nat :=
  [n / 256 % 256, n % 256]

/-- `FrameHeader { frame_type, channel, payload_size }` from `crate::frame`. -/
structure FrameHeader where
  frame_type : Nat
  channel : Nat
  payload_size : Nat
deriving Repr, DecidableEq

/-- Modelled from the spec: serializing a `FrameHeader` with `to_buffer`
yields exactly `frame_type:u8 ++ channel:u16(BE) ++ payload_size:u32(BE)`
(7 bytes). -/
def FrameHeader.encode (h : FrameHeader) : List Nat :=
  h.frame_type % 256 :: (u16be h.channel ++ u32be h.payload_size)

/-- A protocol frame, as this layer sees it: a frame-type tag plus the
payload's encoded bytes.  The spec treats the frame's field-level encoding
as owned by the codec and opaque here, so the payload is kept in encoded
form: `to_buffer(&frame)` appends `payload` and returns its length. -/
structure Frame where
  frameType : Nat
  payload : List Nat
deriving Repr, DecidableEq

/-- `Frame::get_frame_type` returns the frame's type tag. -/
def Frame.get_frame_type (f : Frame) : Nat := f.frameType

/-- Result of a codec decode attempt, `crate::frame::Error` variants plus
success: `Ok((consumed length, channel, frame))`, `Err(Incomplete)`,
`Err(Corrupted)`, `Err(Other(_))`. -/
inductive DecodeResult where
  | ok (len : Nat) (channel : Nat) (frame : Frame)
  | incomplete
  | corrupted
  | other
deriving Repr, DecidableEq

/-- Modelled from the spec: `Frame::decode` over the wire format
`Header(7 bytes) ++ Payload(N bytes) ++ EndMarker(1 byte)`.
Fewer than 7 bytes, or fewer than the header-announced total `7 + L + 1`:
`Incomplete`.  A wrong end-marker byte at position `7 + L`: `Corrupted`.
Otherwise success with the consumed length `7 + L + 1`, the channel id from
header bytes 1..2 (BE) and the frame rebuilt from the type tag (byte 0)
and the `L` payload bytes after the header. -/
def Frame.decode (buf : List Nat) : DecodeResult :=
  match buf with
  | t :: c1 :: c2 :: l1 :: l2 :: l3 :: l4 :: tail =>
    if tail.length < l1 * 16777216 + l2 * 65536 + l3 * 256 + l4 + 1 then .incomplete
    else if tail.getD (l1 * 16777216 + l2 * 65536 + l3 * 256 + l4) 0 = FRAME_END then
      .ok (7 + (l1 * 16777216 + l2 * 65536 + l3 * 256 + l4) + 1) (c1 * 256 + c2)
        ⟨t, tail.take (l1 * 16777216 + l2 * 65536 + l3 * 256 + l4)⟩
    else .corrupted
  | _ => .incomplete

/-- The `Writer` half: send buffer plus a transcript of every byte handed to
`stream.write_all`, and whether `shutdown` was called on the stream. -/
structure Writer where
  buffer : List Nat
  wire : List Nat
  isShutdown : Bool
deriving Repr, DecidableEq

/-- `Writer::write`: serialize a handshake value into the send buffer,
flush the whole buffer, discard the sent bytes, return the byte count.
The serialization of the opaque `T` value is passed in already performed
(`none` models a `to_buffer` failure, in which case `write` returns the
mapped error before flushing). -/
def Writer.write (w : Writer) (enc : Option (List Nat)) : Option (Writer × Nat) :=
  match enc with
  | none => none
  | some bytes =>
    let buf := w.buffer ++ bytes
    let len := buf.length
    some ({ buffer := [], wire := w.wire ++ buf, isShutdown := w.isShutdown }, len)

/-- `Writer::write_frame(channel, frame)`: append a header with a zero
placeholder length, append the encoded payload, overwrite the four bytes at
absolute buffer offsets `3..6` (`self.buffer.get_mut(i + 3)`) with the
big-endian `payload_size as u32`, append `FRAME_END`, flush the whole
buffer and discard it.  The `List.set` calls mirror the patch loop over
`(payload_size as u32).to_be_bytes()`; the indices 3..6 are always in
range because the 7-byte header was just appended, so `get_mut(..).unwrap()`
never panics. -/
def Writer.write_frame (w : Writer) (channel : Nat) (frame : Frame) : Writer × Nat :=
  let header := FrameHeader.encode
    { frame_type := frame.get_frame_type, channel := channel, payload_size := 0 }
  let payload_size := frame.payload.length
  let buf2 := (w.buffer ++ header) ++ frame.payload
  let lenBytes := u32be (payload_size % 4294967296)
  let buf3 := ((((buf2.set 3 (lenBytes.getD 0 0)).set 4 (lenBytes.getD 1 0)).set 5
      (lenBytes.getD 2 0)).set 6 (lenBytes.getD 3 0))
  let buf4 := buf3 ++ [FRAME_END]
  let len := buf4.length
  ({ buffer := [], wire := w.wire ++ buf4, isShutdown := w.isShutdown }, len)

/-- `Writer::close`: `self.stream.shutdown().await` — shuts the outbound
half down and touches neither the send buffer nor the wire
(the `TODO: flush buffers if is not empty?` is not implemented). -/
def Writer.close (w : Writer) : Writer :=
  { w with isShutdown := true }

/-- The `Reader` half: the receive buffer that persists across calls. -/
structure Reader where
  buffer : List Nat
deriving Repr, DecidableEq

/-- Error conditions `read_frame` returns (each is an `io::Error` with the
corresponding message in the code). -/
inductive ReadErr where
  | peerShutdown
  | connectionFailure
  | corruptedFrame
deriving Repr, DecidableEq

/-- Outcome of `read_frame`: success carries the channel id, the frame, the
reader's remaining buffer and the unconsumed transport chunks; `panicked`
models the `todo!()` in the `Error::Other` match arm. -/
inductive ReadResult where
  | ok (channel : Nat) (frame : Frame) (reader : Reader) (rest : List (List Nat))
  | err (e : ReadErr)
  | panicked
deriving Repr, DecidableEq

/-- `Reader::read_frame`, parameterized by the codec's decode function.
Each loop iteration consumes one transport chunk (`read_buf` appends it to
the receive buffer); an exhausted list or an empty chunk is a zero-byte
read.  On decode success exactly `len` bytes are dropped from the front
(`self.buffer.advance(len)`); on `Incomplete` the loop continues with the
grown buffer; on `Corrupted` an error is returned; on `Other` the code
hits `todo!()`. -/
def Reader.read_frameWith (d : List Nat → DecodeResult) :
    Reader → List (List Nat) → ReadResult
  | r, [] =>
    if r.buffer = [] then .err .peerShutdown else .err .connectionFailure
  | r, c :: rest =>
    if c.length = 0 then
      if r.buffer = [] then .err .peerShutdown else .err .connectionFailure
    else
      match d (r.buffer ++ c) with
      | .ok len channel frame => .ok channel frame ⟨(r.buffer ++ c).drop len⟩ rest
      | .incomplete => Reader.read_frameWith d ⟨r.buffer ++ c⟩ rest
      | .corrupted => .err .corruptedFrame
      | .other => .panicked

/-- `Reader::read_frame` with the real codec. -/
def Reader.read_frame (r : Reader) (chunks : List (List Nat)) : ReadResult :=
  Reader.read_frameWith Frame.decode r chunks

/-- The byte sequence a well-formed frame occupies on the wire:
`type:u8 ++ channel:u16(BE) ++ length:u32(BE) ++ payload ++ FRAME_END`. -/
def wireBytes (t ch : Nat) (p : List Nat) : List Nat :=
  t % 256 :: (u16be ch ++ (u32be p.length ++ (p ++ [FRAME_END])))

theorem append_getD_length (p q : List Nat) (d : Nat) : (p ++ q).getD p.length d = q.getD 0 d := by
  induction p with
  | nil => rfl
  | cons a l ih => simpa using ih

theorem append_take_length (p q : List Nat) : (p ++ q).take p.length = p := by
  induction p with
  | nil => rfl
  | cons a l ih => simp [ih]

theorem append_drop_length (p q : List Nat) : (p ++ q).drop p.length = q := by
  induction p with
  | nil => rfl
  | cons a l ih => simp [ih]

/-- Decoding a buffer that starts with a well-formed frame for channel `ch`,
type `t` and payload `p` succeeds, consumes exactly the frame's `7 + L + 1`
bytes, and ignores any trailing bytes. -/
theorem Frame.decode_wireBytes (t ch : Nat) (p rest : List Nat)
    (ht : t < 256) (hch : ch < 65536) (hp : p.length < 4294967296) :
    Frame.decode (wireBytes t ch p ++ rest) = .ok (7 + p.length + 1) ch ⟨t, p⟩ := by
  have hL : p.length / 16777216 % 256 * 16777216 + p.length / 65536 % 256 * 65536 +
      p.length / 256 % 256 * 256 + p.length % 256 = p.length := by omega
  have ht' : t % 256 = t := Nat.mod_eq_of_lt ht
  have hch' : ch / 256 % 256 * 256 + ch % 256 = ch := by omega
  simp only [wireBytes, u16be, u32be, List.cons_append, List.append_assoc,
    List.singleton_append, List.nil_append]
  simp only [Frame.decode]
  rw [hL]
  rw [if_neg (by simp)]
  rw [if_pos (by rw [append_getD_length]; rfl)]
  rw [append_take_length, ht', hch']

/-- `write_frame` called on a `Writer` whose send buffer is empty appends
exactly the well-formed frame bytes to the wire, returns their count
`7 + L + 1`, and leaves the send buffer empty. -/
theorem Writer.write_frame_wire (w : Writer) (ch : Nat) (f : Frame)
    (hbuf : w.buffer = []) (hp : f.payload.length < 4294967296) :
    Writer.write_frame w ch f =
      ({ buffer := [], wire := w.wire ++ wireBytes f.frameType ch f.payload,
         isShutdown := w.isShutdown }, 8 + f.payload.length) := by
  obtain ⟨t, p⟩ := f
  simp only [Writer.write_frame, Frame.get_frame_type, FrameHeader.encode, u16be, u32be,
    hbuf, List.nil_append, List.cons_append, List.append_assoc, List.singleton_append]
  rw [Nat.mod_eq_of_lt hp]
  simp [wireBytes, u16be, u32be, List.set, List.getD]
  omega

theorem wireBytes_length (t ch : Nat) (p : List Nat) :
    (wireBytes t ch p).length = 8 + p.length := by
  simp [wireBytes, u16be, u32be]
  omega

theorem append_drop_length_add (p q : List Nat) (n : Nat) :
    (p ++ q).drop (p.length + n) = q.drop n := by
  induction p with
  | nil => simp
  | cons a l ih => simp [Nat.succ_add, ih]

theorem read_frameWith_nil (d : List Nat → DecodeResult) (r : Reader) :
    Reader.read_frameWith d r [] =
      if r.buffer = [] then .err .peerShutdown else .err .connectionFailure := by
  rfl

theorem read_frameWith_empty_chunk (d : List Nat → DecodeResult) (r : Reader)
    (rest : List (List Nat)) :
    Reader.read_frameWith d r ([] :: rest) =
      if r.buffer = [] then .err .peerShutdown else .err .connectionFailure := by
  simp [Reader.read_frameWith]

theorem read_frameWith_success_step (d : List Nat → DecodeResult) (buf c : List Nat)
    (rest : List (List Nat)) (n ch : Nat) (f : Frame)
    (hc : c.length ≠ 0) (hdec : d (buf ++ c) = .ok n ch f) :
    Reader.read_frameWith d ⟨buf⟩ (c :: rest) = .ok ch f ⟨(buf ++ c).drop n⟩ rest := by
  simp [Reader.read_frameWith, hc, hdec]

theorem read_frameWith_incomplete_step (d : List Nat → DecodeResult) (buf c : List Nat)
    (rest : List (List Nat)) (hc : c.length ≠ 0) (hdec : d (buf ++ c) = .incomplete) :
    Reader.read_frameWith d ⟨buf⟩ (c :: rest) = Reader.read_frameWith d ⟨buf ++ c⟩ rest := by
  simp [Reader.read_frameWith, hc, hdec]

theorem read_frameWith_other_step (d : List Nat → DecodeResult) (buf c : List Nat)
    (rest : List (List Nat)) (hc : c.length ≠ 0) (hdec : d (buf ++ c) = .other) :
    Reader.read_frameWith d ⟨buf⟩ (c :: rest) = .panicked := by
  simp [Reader.read_frameWith, hc, hdec]

theorem Frame.decode_ne_other (buf : List Nat) : Frame.decode buf ≠ .other := by
  unfold Frame.decode
  split
  · split
    · simp
    · split <;> simp
  · simp

theorem read_frame_ne_panicked (chunks : List (List Nat)) :
    ∀ r : Reader, Reader.read_frame r chunks ≠ .panicked := by
  induction chunks with
  | nil =>
    intro r
    rw [Reader.read_frame, read_frameWith_nil]
    split <;> simp
  | cons c rest ih =>
    intro r
    by_cases hc : c.length = 0
    · have hcnil : c = [] := List.length_eq_zero.mp hc
      rw [Reader.read_frame, hcnil, read_frameWith_empty_chunk]
      split <;> simp
    · cases hdec : Frame.decode (r.buffer ++ c) with
      | ok n ch f =>
        rw [Reader.read_frame, show r = Reader.mk r.buffer from rfl,
          read_frameWith_success_step Frame.decode r.buffer c rest n ch f hc hdec]
        simp
      | incomplete =>
        rw [Reader.read_frame, show r = Reader.mk r.buffer from rfl,
          read_frameWith_incomplete_step Frame.decode r.buffer c rest hc hdec]
        exact ih ⟨r.buffer ++ c⟩
      | corrupted =>
        rw [Reader.read_frame, show r = Reader.mk r.buffer from rfl]
        simp [Reader.read_frameWith, hc, hdec]
      | other => exact absurd hdec (Frame.decode_ne_other _)

theorem wireBytes_length_pos (t ch : Nat) (p : List Nat) : (wireBytes t ch p).length ≠ 0 := by
  rw [wireBytes_length]
  omega

theorem wireBytes_drop_all (t ch : Nat) (p rest : List Nat) :
    (wireBytes t ch p ++ rest).drop (7 + p.length + 1) = rest := by
  have h : 7 + p.length + 1 = (wireBytes t ch p).length + 0 := by rw [wireBytes_length]; omega
  rw [h, append_drop_length_add]
  rfl

/-- Claim C1: for every valid frame value and channel id, `write_frame` on a
fresh writer followed by `read_frame` on a fresh reader fed the writer's
wire transcript as one chunk returns the same channel id and the same frame
(the spec-modelled codec's encode and decode are mutual inverses, which
this theorem in particular establishes). -/
theorem claim_c1_roundtrip (t ch : Nat) (p : List Nat)
    (ht : t < 256) (hch : ch < 65536) (hp : p.length < 4294967296) :
    Reader.read_frame ⟨[]⟩ [(Writer.write_frame ⟨[], [], false⟩ ch ⟨t, p⟩).1.wire] =
      .ok ch ⟨t, p⟩ ⟨[]⟩ [] := by
  rw [Writer.write_frame_wire _ _ _ rfl hp]
  simp only [List.nil_append]
  rw [Reader.read_frame, read_frameWith_success_step Frame.decode [] (wireBytes t ch p) []
    (7 + p.length + 1) ch ⟨t, p⟩ (wireBytes_length_pos t ch p)
    (by simpa using Frame.decode_wireBytes t ch p [] ht hch hp)]
  have h0 := wireBytes_drop_all t ch p []
  simp only [List.append_nil] at h0
  simp [h0]

theorem claim_c1_roundtrip_witness :
    Reader.read_frame ⟨[]⟩ [(Writer.write_frame ⟨[], [], false⟩ 5 ⟨1, [10, 20]⟩).1.wire] =
      .ok 5 ⟨1, [10, 20]⟩ ⟨[]⟩ [] :=
  claim_c1_roundtrip 1 5 [10, 20] (by decide) (by decide) (by decide)

/-- Claim C2: a successful `write_frame` on a writer with empty send buffer
emits on the transport exactly the 7-byte header (type byte, channel as
big-endian u16, then at offset 3 the 4 big-endian bytes of the payload
length L), the L payload bytes and the single end-marker byte, nothing
else; in particular the 4 bytes at fixed offset 3 of the emitted frame are
the big-endian encoding of L. -/
theorem claim_c2_wire_exact (w : Writer) (ch : Nat) (f : Frame)
    (hbuf : w.buffer = []) (hp : f.payload.length < 4294967296) :
    (Writer.write_frame w ch f).1.wire =
      w.wire ++ (f.frameType % 256 :: (u16be ch ++
        (u32be f.payload.length ++ (f.payload ++ [FRAME_END])))) ∧
    (((Writer.write_frame w ch f).1.wire.drop w.wire.length).drop 3).take 4 =
      u32be f.payload.length := by
  rw [Writer.write_frame_wire w ch f hbuf hp]
  refine ⟨rfl, ?_⟩
  simp only [append_drop_length w.wire (wireBytes f.frameType ch f.payload)]
  simp [wireBytes, u16be, u32be]

theorem claim_c2_wire_exact_witness :
    (Writer.write_frame ⟨[], [20, 30], false⟩ 5 ⟨1, [10, 20]⟩).1.wire =
      [20, 30] ++ (1 % 256 :: (u16be 5 ++ (u32be 2 ++ ([10, 20] ++ [FRAME_END])))) ∧
    (((Writer.write_frame ⟨[], [20, 30], false⟩ 5 ⟨1, [10, 20]⟩).1.wire.drop 2).drop 3).take 4 =
      u32be 2 :=
  claim_c2_wire_exact ⟨[], [20, 30], false⟩ 5 ⟨1, [10, 20]⟩ rfl (by decide)

/-- Claim C3 counterexample: two well-formed frames (channel 0, types 1 and
2, payloads `[10]` and `[20]`) arrive concatenated in a single transport
read and the stream then ends.  The first `read_frame` returns the first
frame and keeps the second frame's bytes buffered, but the second
`read_frame` returns the connection-failure error instead of the buffered
second frame, because `read_frame` always performs another transport read
before attempting any decode. -/
theorem claim_c3_counterexample :
    Reader.read_frame ⟨[]⟩ [[1, 0, 0, 0, 0, 0, 1, 10, 206] ++ [2, 0, 0, 0, 0, 0, 1, 20, 206]] =
      .ok 0 ⟨1, [10]⟩ ⟨[2, 0, 0, 0, 0, 0, 1, 20, 206]⟩ [] ∧
    Reader.read_frame ⟨[2, 0, 0, 0, 0, 0, 1, 20, 206]⟩ [] = .err .connectionFailure := by
  decide

/-- Claim C3 (amended): if two encoded frames arrive concatenated in a
single transport read, the first `read_frame` returns the first frame and
preserves exactly the second frame's bytes in the buffer; the second
`read_frame` returns the second frame provided its transport read delivers
at least one further byte, with no bytes of one frame leaking into the
other (the extra bytes are left buffered for the next call). -/
theorem claim_c3_two_frames_one_read (t1 ch1 t2 ch2 : Nat) (p1 p2 c : List Nat)
    (ht1 : t1 < 256) (hch1 : ch1 < 65536) (hp1 : p1.length < 4294967296)
    (ht2 : t2 < 256) (hch2 : ch2 < 65536) (hp2 : p2.length < 4294967296)
    (hc : c.length ≠ 0) :
    Reader.read_frame ⟨[]⟩ [wireBytes t1 ch1 p1 ++ wireBytes t2 ch2 p2, c] =
      .ok ch1 ⟨t1, p1⟩ ⟨wireBytes t2 ch2 p2⟩ [c] ∧
    Reader.read_frame ⟨wireBytes t2 ch2 p2⟩ [c] = .ok ch2 ⟨t2, p2⟩ ⟨c⟩ [] := by
  constructor
  · rw [Reader.read_frame, read_frameWith_success_step Frame.decode []
      (wireBytes t1 ch1 p1 ++ wireBytes t2 ch2 p2) [c] (7 + p1.length + 1) ch1 ⟨t1, p1⟩
      (by simp [wireBytes_length])
      (by simpa using Frame.decode_wireBytes t1 ch1 p1 (wireBytes t2 ch2 p2) ht1 hch1 hp1)]
    simp [wireBytes_drop_all]
  · rw [Reader.read_frame, read_frameWith_success_step Frame.decode (wireBytes t2 ch2 p2) c []
      (7 + p2.length + 1) ch2 ⟨t2, p2⟩ hc
      (Frame.decode_wireBytes t2 ch2 p2 c ht2 hch2 hp2)]
    simp [wireBytes_drop_all]

theorem claim_c3_two_frames_one_read_witness :
    Reader.read_frame ⟨[]⟩ [wireBytes 1 0 [10] ++ wireBytes 2 0 [20], [7]] =
      .ok 0 ⟨1, [10]⟩ ⟨wireBytes 2 0 [20]⟩ [[7]] ∧
    Reader.read_frame ⟨wireBytes 2 0 [20]⟩ [[7]] = .ok 0 ⟨2, [20]⟩ ⟨[7]⟩ [] :=
  claim_c3_two_frames_one_read 1 0 2 0 [10] [20] [7] (by decide) (by decide) (by decide)
    (by decide) (by decide) (by decide) (by decide)

/-- Claim C4: whenever a transport read inside `read_frame` returns zero
bytes (the chunk transcript is exhausted, or the next chunk is empty),
`read_frame` returns the peer-shutdown error exactly when the receive
buffer is empty at that moment, and the connection-failure error exactly
when it is non-empty. -/
theorem claim_c4_zero_read_errors (buf : List Nat) (rest : List (List Nat)) :
    Reader.read_frame ⟨buf⟩ [] =
      (if buf = [] then .err .peerShutdown else .err .connectionFailure) ∧
    Reader.read_frame ⟨buf⟩ ([] :: rest) =
      (if buf = [] then .err .peerShutdown else .err .connectionFailure) := by
  exact ⟨by rw [Reader.read_frame, read_frameWith_nil],
    by rw [Reader.read_frame, read_frameWith_empty_chunk]⟩

/-- Claim C5: when a decode attempt inside `read_frame` succeeds with
consumed length `n`, exactly `n` bytes are dropped from the front of the
receive buffer and every byte after them is preserved for the next call. -/
theorem claim_c5_consume_exact (buf c : List Nat) (rest : List (List Nat))
    (n ch : Nat) (f : Frame) (hc : c.length ≠ 0)
    (hdec : Frame.decode (buf ++ c) = .ok n ch f) :
    Reader.read_frame ⟨buf⟩ (c :: rest) = .ok ch f ⟨(buf ++ c).drop n⟩ rest := by
  rw [Reader.read_frame]
  exact read_frameWith_success_step Frame.decode buf c rest n ch f hc hdec

theorem claim_c5_consume_exact_witness :
    Reader.read_frame ⟨[]⟩ [[1, 0, 5, 0, 0, 0, 2, 10, 20, 206], [3]] =
      .ok 5 ⟨1, [10, 20]⟩ ⟨[]⟩ [[3]] :=
  claim_c5_consume_exact [] [1, 0, 5, 0, 0, 0, 2, 10, 20, 206] [[3]] 10 5 ⟨1, [10, 20]⟩
    (by decide) (by decide)

/-- Claim C6: when the codec reports an incomplete frame, `read_frame`
surfaces nothing to the caller: it keeps every buffered byte (the buffer
grows from `buf` to `buf ++ c`) and performs another transport read,
retrying the decode — i.e. the call equals the call on the grown buffer
with the remaining transcript. -/
theorem claim_c6_incomplete_retries (buf c : List Nat) (rest : List (List Nat))
    (hc : c.length ≠ 0) (hdec : Frame.decode (buf ++ c) = .incomplete) :
    Reader.read_frame ⟨buf⟩ (c :: rest) = Reader.read_frame ⟨buf ++ c⟩ rest := by
  rw [Reader.read_frame, Reader.read_frame]
  exact read_frameWith_incomplete_step Frame.decode buf c rest hc hdec

theorem claim_c6_incomplete_retries_witness :
    Reader.read_frame ⟨[]⟩ [[1, 0, 5], [0, 0, 0, 0, 206]] =
      Reader.read_frame ⟨[1, 0, 5]⟩ [[0, 0, 0, 0, 206]] :=
  claim_c6_incomplete_retries [] [1, 0, 5] [[0, 0, 0, 0, 206]] (by decide) (by decide)

/-- Claim C7: after every successful Writer operation (`write` or
`write_frame`) the send buffer is empty: the flushed bytes are discarded
by `advance(len)` before the operation returns, whatever the buffer held
before. -/
theorem claim_c7_buffer_empty_after_ops (w : Writer) (bytes : List Nat)
    (ch : Nat) (f : Frame) :
    (Writer.write w (some bytes)).map (fun x => x.1.buffer) = some [] ∧
    (Writer.write_frame w ch f).1.buffer = [] :=
  ⟨rfl, rfl⟩

/-- Claim C8: `close` shuts down the outbound half and writes nothing: the
send buffer and the wire transcript are both unchanged, so a non-empty
buffer is never implicitly flushed. -/
theorem claim_c8_close_no_flush (w : Writer) :
    (Writer.close w).buffer = w.buffer ∧ (Writer.close w).wire = w.wire ∧
    (Writer.close w).isShutdown = true :=
  ⟨rfl, rfl, rfl⟩

/-- Claim C9: the length patch writes at absolute send-buffer offsets 3..6.
With an empty initial buffer the emitted frame's 4 length bytes at offset 3
equal the big-endian payload length; with the non-empty initial buffer
`[9,9,9,9,9,9,9]` the patch instead overwrites the previously buffered
bytes at offsets 3..6 (9,9,9,9 become 0,0,0,3) while the newly appended
header's own length field (offsets 10..13 of the flushed bytes) stays
zero. -/
theorem claim_c9_absolute_offset_patch (w : Writer) (ch : Nat) (f : Frame)
    (hbuf : w.buffer = []) (hp : f.payload.length < 4294967296) :
    ((((Writer.write_frame w ch f).1.wire.drop w.wire.length).drop 3).take 4 =
      u32be f.payload.length) ∧
    (Writer.write_frame ⟨[9, 9, 9, 9, 9, 9, 9], [], false⟩ 0 ⟨1, [1, 2, 3]⟩).1.wire =
      [9, 9, 9, 0, 0, 0, 3, 1, 0, 0, 0, 0, 0, 0, 1, 2, 3, 206] ∧
    ((Writer.write_frame ⟨[9, 9, 9, 9, 9, 9, 9], [], false⟩ 0 ⟨1, [1, 2, 3]⟩).1.wire.drop
        10).take 4 = [0, 0, 0, 0] ∧
    u32be ([1, 2, 3] : List Nat).length ≠ [0, 0, 0, 0] := by
  refine ⟨?_, by decide, by decide, by decide⟩
  rw [Writer.write_frame_wire w ch f hbuf hp]
  simp only [append_drop_length w.wire (wireBytes f.frameType ch f.payload)]
  simp [wireBytes, u16be, u32be]

theorem claim_c9_absolute_offset_patch_witness :
    ((((Writer.write_frame ⟨[], [], false⟩ 5 ⟨1, [10, 20]⟩).1.wire.drop 0).drop 3).take 4 =
      u32be 2) ∧
    (Writer.write_frame ⟨[9, 9, 9, 9, 9, 9, 9], [], false⟩ 0 ⟨1, [1, 2, 3]⟩).1.wire =
      [9, 9, 9, 0, 0, 0, 3, 1, 0, 0, 0, 0, 0, 0, 1, 2, 3, 206] ∧
    ((Writer.write_frame ⟨[9, 9, 9, 9, 9, 9, 9], [], false⟩ 0 ⟨1, [1, 2, 3]⟩).1.wire.drop
        10).take 4 = [0, 0, 0, 0] ∧
    u32be ([1, 2, 3] : List Nat).length ≠ [0, 0, 0, 0] :=
  claim_c9_absolute_offset_patch ⟨[], [], false⟩ 5 ⟨1, [10, 20]⟩ rfl (by decide)

/-- Claim C10: `read_frame` handles only the `Incomplete` and `Corrupted`
codec error variants: a decode function returning the `Other` variant makes
it hit `todo!()` (modelled as the `panicked` outcome); with the actual
codec, which never returns `Other`, `read_frame` never panics, and every
error it returns is peer-shutdown, connection-failure or corrupted-frame. -/
theorem claim_c10_other_variant_panics :
    (∀ (d : List Nat → DecodeResult) (buf c : List Nat) (rest : List (List Nat)),
        c.length ≠ 0 → d (buf ++ c) = .other →
        Reader.read_frameWith d ⟨buf⟩ (c :: rest) = .panicked) ∧
    (∀ (r : Reader) (chunks : List (List Nat)), Reader.read_frame r chunks ≠ .panicked) ∧
    (∀ (r : Reader) (chunks : List (List Nat)) (e : ReadErr),
        Reader.read_frame r chunks = .err e →
        e = .peerShutdown ∨ e = .connectionFailure ∨ e = .corruptedFrame) := by
  refine ⟨fun d buf c rest hc hdec => read_frameWith_other_step d buf c rest hc hdec,
    fun r chunks => read_frame_ne_panicked chunks r, fun r chunks e _ => ?_⟩
  cases e <;> simp

theorem claim_c10_other_variant_panics_witness :
    Reader.read_frameWith (fun _ => .other) ⟨[]⟩ [[0]] = .panicked :=
  claim_c10_other_variant_panics.1 (fun _ => .other) [] [0] [] (by decide) rfl

end Amqprs
